import Mathlib

/-!
Shallow embedding of `src/waffles/WaveformSet.py` (class `WaveformSet`),
with the external record type (`Waveform` / `WaveformAdcs`, not present
under `src/`) modelled from the spec's data-model section.

Python semantics conventions used throughout:
  * raised exceptions are modelled with `Except PyErr`; the distinguished
    messages produced via `generate_exception_message(n, fn)` are mapped to
    dedicated `PyErr` constructors, and uncaught built-in exceptions
    (`IndexError`, `TypeError`) to `PyErr.indexError` / `PyErr.typeError`;
  * Python list indexing `xs[i]` is `pyGet xs i` (negative indices alias
    from the end; out-of-range raises `IndexError`);
  * numpy arrays are `List ℚ`; `a += b` on an array that aliases a stored
    record trace is modelled by writing the updated list back into the
    record (this in-place aliasing is exactly what
    `__compute_mean_waveform_of_every_waveform` does);
  * mutating methods take the `WaveformSet` state and return the new state
    together with the `Except` outcome, so that the state after a raised
    exception is visible (Python does not roll back on raise).
-/

namespace Waffles

/-- Errors raised by the embedded code.  `shapeError`, `malformedLimits`,
`malformedWindow`, `analyserContract`, `filterContract`, `emptyCollection`,
`selectorContract` and `emptySelection` stand for the numbered
`Exception(generate_exception_message(...))` raises of `WaveformSet.py`;
`indexError` and `typeError` stand for uncaught Python built-in exceptions.
The `Nat` argument of the contract errors is the message number used at the
corresponding raise site. -/
inductive PyErr where
  | indexError
  | typeError
  | shapeError                    -- WaveformSet.__init__(), message 1
  | malformedLimits               -- WaveformSet.analyse(), message 1
  | malformedWindow               -- WaveformSet.analyse(), message 2
  | analyserContract (n : Nat)    -- WaveformSet.analyse(), messages 3..8
  | badGridParams (n : Nat)       -- grid-shape raises (messages 1, 2, 6, 7, 8)
  | filterContract (n : Nat)      -- WaveformSet.get_grid_of_wf_idcs(), messages 3..5
  | emptyCollection               -- WaveformSet.compute_mean_waveform(), message 1
  | selectorContract (n : Nat)    -- WaveformSet.compute_mean_waveform(), messages 2..4
  | emptySelection                -- compute_mean_waveform() message 5 /
                                  -- __compute_mean_waveform_with_selector() message 1
deriving DecidableEq, Repr

/-- Modelled from the spec: the external `WaveformRecord` entity (class
`Waveform`, whose module `NWaveform.py` is not under `src/`): a numeric
trace (`Adcs`), a time step, an absolute timestamp, a run number, an
endpoint, a channel, and the attached mapping of named analysis results
(modelled by the list of labels attached so far). -/
structure Waveform where
  Timestamp : Int
  TimeStep_ns : ℚ
  Adcs : List ℚ
  RunNumber : Int
  Endpoint : Int
  Channel : Int
  Analyses : List String := []
deriving DecidableEq, Repr

/-- Modelled from the spec: the external `WaveformAdcs` value returned by
the aggregator — a time step together with a trace. -/
structure WaveformAdcs where
  TimeStep_ns : ℚ
  Adcs : List ℚ
deriving DecidableEq, Repr

/-- State of a `WaveformSet` object: the private attributes
`__waveforms`, `__points_per_wf`, `__runs`, `__available_channels`,
`__mean_adcs`, `__mean_adcs_idcs`.  The `runs` set is kept as the list of
run numbers in insertion order (membership agrees with the Python set);
`available_channels` is the association list built by
`update_available_channels`. -/
structure WaveformSet where
  waveforms : List Waveform
  points_per_wf : Nat
  runs : List Int
  available_channels : List (Int × List Int)
  mean_adcs : Option WaveformAdcs
  mean_adcs_idcs : Option (List Int)
deriving DecidableEq, Repr

/-- Python list indexing `xs[i]`: indices in `[0, len)` read directly,
indices in `[-len, -1]` alias from the end, anything else raises
`IndexError` (modelled as `none`). -/
def pyGet (xs : List α) (i : Int) : Option α :=
  if 0 ≤ i then xs.get? i.toNat
  else if -(xs.length : Int) ≤ i then xs.get? (xs.length - (-i).toNat)
  else none

/-- `WaveformSet.check_length_homogeneity`: reads
`len(self.__waveforms[0].Adcs)` — on an empty waveform list this raises an
uncaught `IndexError`; otherwise it returns whether every waveform's
`Adcs` has the same length as the first one's. -/
def check_length_homogeneity (waveforms : List Waveform) : Except PyErr Bool :=
  match waveforms with
  | [] => .error .indexError
  | w0 :: rest => .ok (rest.all (fun w => w.Adcs.length == w0.Adcs.length))

/-- `WaveformSet.update_runs`: accumulates `wf.RunNumber` for every
waveform into the runs set.  Modelled as the list of run numbers
(membership in it agrees with membership in the Python set). -/
def update_runs (waveforms : List Waveform) : List Int :=
  waveforms.map (fun wf => wf.RunNumber)

/-- One step of `WaveformSet.update_available_channels`: add channel `c`
to the channel set of endpoint `e`, creating the key when the lookup
raises `KeyError`. -/
def ac_insert (d : List (Int × List Int)) (e c : Int) : List (Int × List Int) :=
  match d with
  | [] => [(e, [c])]
  | (k, cs) :: rest =>
    if k = e then (k, c :: cs) :: rest else (k, cs) :: ac_insert rest e c

/-- `WaveformSet.update_available_channels`: fold `ac_insert` over the
waveforms, starting from the empty dictionary. -/
def update_available_channels (waveforms : List Waveform) : List (Int × List Int) :=
  waveforms.foldl (fun d wf => ac_insert d wf.Endpoint wf.Channel) []

/-- Dictionary lookup on the association list built by
`update_available_channels`. -/
def ac_lookup (d : List (Int × List Int)) (e : Int) : Option (List Int) :=
  match d with
  | [] => none
  | (k, cs) :: rest => if k = e then some cs else ac_lookup rest e

/-- The two-step guard of `__get_grid_of_wf_idcs_by_endpoint_and_channel`:
`e in d.keys()` and then `c in d[e]`; false means the cell scan is
skipped (`continue`). -/
def ac_mem (d : List (Int × List Int)) (e c : Int) : Bool :=
  match ac_lookup d e with
  | none => false
  | some cs => c ∈ cs

/-- `WaveformSet.__init__`: store the waveforms; `check_length_homogeneity`
(raising `IndexError` on an empty list) must return `True`, else the
message-1 `Exception` (the spec's `ShapeError`) is raised; on success the
derived state is computed and both mean-caches start as `None`. -/
def waveformSetInit (waveforms : List Waveform) : Except PyErr WaveformSet :=
  match check_length_homogeneity waveforms with
  | .error e => .error e
  | .ok b =>
    if ¬ b then .error .shapeError
    else
      match waveforms with
      | [] => .error .indexError   -- dead branch: homogeneity check already raised on []
      | w0 :: _ =>
        .ok { waveforms := waveforms
              points_per_wf := w0.Adcs.length
              runs := update_runs waveforms
              available_channels := update_available_channels waveforms
              mean_adcs := none
              mean_adcs_idcs := none }

/-- Signature annotations that the reflection-based contract checks of
`WaveformSet.py` compare against: the `Waveform` class, the `WaveformAdcs`
class and its string literal, `bool`, `Tuple[WfAnaResult, bool, dict]`,
`int`, or no/other annotation. -/
inductive Ann where
  | waveformCls
  | waveformAdcsCls
  | strWaveformAdcs
  | boolCls
  | tupleWfAnaResultBoolDict
  | intCls
  | empty
deriving DecidableEq, Repr

/-- Result of `inspect.signature`: the ordered formal parameters with
their annotations, and the return annotation. -/
structure PySignature where
  params : List (String × Ann)
  retAnn : Ann
deriving DecidableEq, Repr

/-- How the analyser name of `WaveformSet.analyse` resolves on the dummy
`WfAna` instance: missing attribute (`getattr` raises `AttributeError`),
a non-callable attribute (`inspect.signature` raises `TypeError`), or a
callable with a signature. -/
inductive AnalyserRef where
  | missing
  | notCallable
  | sig (s : PySignature)
deriving DecidableEq, Repr

/-- Analyser-contract validation of `WaveformSet.analyse` (messages 3..8):
the name must resolve (message 3) to a callable (message 4) taking at
least one parameter (`IndexError` caught → message 8) named `waveform`
(message 5) annotated as `WaveformAdcs` or the `'WaveformAdcs'` literal
(message 6), with return annotation `Tuple[WfAnaResult, bool, dict]`
(message 7). -/
def check_analyser_contract (a : AnalyserRef) : Except PyErr Unit :=
  match a with
  | .missing => .error (.analyserContract 3)
  | .notCallable => .error (.analyserContract 4)
  | .sig s =>
    match s.params with
    | [] => .error (.analyserContract 8)
    | (name, ann) :: _ =>
      if name ≠ "waveform" then .error (.analyserContract 5)
      else if ann ≠ Ann.waveformAdcsCls ∧ ann ≠ Ann.strWaveformAdcs then
        .error (.analyserContract 6)
      else if s.retAnn ≠ Ann.tupleWfAnaResultBoolDict then .error (.analyserContract 7)
      else .ok ()

/-- `WaveformSet.baseline_limits_are_well_formed`: parity check first,
then `baseline_limits[0] < 0` — on the empty (even-length!) list this
indexing raises an uncaught `IndexError` — then the adjacent strict
increase loop, then `baseline_limits[-1] > self.PointsPerWf - 1`. -/
def baseline_limits_are_well_formed (points_per_wf : Int) (baseline_limits : List Int) :
    Except PyErr Bool :=
  if baseline_limits.length % 2 ≠ 0 then .ok false
  else
    match baseline_limits with
    | [] => .error .indexError
    | b0 :: rest =>
      if b0 < 0 then .ok false
      else if ¬ List.Chain' (· < ·) (b0 :: rest) then .ok false
      else if (b0 :: rest).getLastD 0 > points_per_wf - 1 then .ok false
      else .ok true

/-- `WaveformSet.subinterval_is_well_formed`: `0 <= i_low < i_up <=
self.PointsPerWf - 1`. -/
def subinterval_is_well_formed (points_per_wf : Int) (i_low i_up : Int) : Bool :=
  if i_low < 0 then false
  else if i_up ≤ i_low then false
  else if i_up > points_per_wf - 1 then false
  else true

/-- `WaveformSet.analyse`: validate the baseline limits (message 1),
resolve the default integration upper limit, validate the window
(message 2), validate the analyser contract (messages 3..8), and only
then loop over every waveform calling its external `analyse` method.
The external per-record call is modelled from the spec: it attaches a
new analysis entry under `label` to the record's result mapping.  The
returned state is the state at the moment the outcome is produced, so an
error leaves every record untouched. -/
def analyse (s : WaveformSet) (label : String) (a : AnalyserRef)
    (baseline_limits : List Int) (int_ll : Int) (int_ul : Option Int) :
    WaveformSet × Except PyErr Unit :=
  match baseline_limits_are_well_formed (s.points_per_wf : Int) baseline_limits with
  | .error e => (s, .error e)
  | .ok ok1 =>
    if ¬ ok1 then (s, .error .malformedLimits)
    else
      let int_ul_ := int_ul.getD ((s.points_per_wf : Int) - 1)
      if ¬ subinterval_is_well_formed (s.points_per_wf : Int) int_ll int_ul_ then
        (s, .error .malformedWindow)
      else
        match check_analyser_contract a with
        | .error e => (s, .error e)
        | .ok _ =>
          ({ s with waveforms :=
              s.waveforms.map (fun wf => { wf with Analyses := wf.Analyses ++ [label] }) },
           .ok ())

/-- `WaveformSet.match_run`: `waveform.RunNumber == run`. -/
def match_run (waveform : Waveform) (run : Int) : Bool :=
  waveform.RunNumber == run

/-- `WaveformSet.match_endpoint_and_channel`: `waveform.Endpoint ==
endpoint and waveform.Channel == channel`. -/
def match_endpoint_and_channel (waveform : Waveform) (endpoint : Int) (channel : Int) : Bool :=
  waveform.Endpoint == endpoint && waveform.Channel == channel

/-- Uncapped per-cell scan shared by the three grid-filling methods:
`for k in range(len(self.__waveforms)): if pred(...): append k`.  The
`k` argument is the index of the first waveform of the remaining list. -/
def scanAll (p : Waveform → Bool) : List Waveform → Nat → List Nat
  | [], _ => []
  | wf :: rest, k =>
    if p wf then k :: scanAll p rest (k + 1) else scanAll p rest (k + 1)

/-- Capped per-cell scan shared by the three grid-filling methods: append
the index, increment the counter, and `break` once the counter reaches
`max_wfs_per_axes`. -/
def scanCap (p : Waveform → Bool) : List Waveform → Nat → Nat → Nat → List Nat
  | [], _, _, _ => []
  | wf :: rest, k, counter, mx =>
    if p wf then
      if counter + 1 == mx then [k]
      else k :: scanCap p rest (k + 1) (counter + 1) mx
    else scanCap p rest (k + 1) counter mx

/-- Per-cell body of the grid-filling methods: the `fMaxIsSet` branch
chooses between the capped and the uncapped scan over the whole waveform
list. -/
def scanCell (waveforms : List Waveform) (p : Waveform → Bool)
    (fMaxIsSet : Bool) (mx : Nat) : List Nat :=
  if fMaxIsSet then scanCap p waveforms 0 0 mx else scanAll p waveforms 0

/-- `WaveformSet.__get_grid_of_wf_idcs_general`: for each cell of the
(`nrows` × `ncols`, same shape as `filter_args`) blank grid, scan every
waveform with `wf_filter(self.__waveforms[k], *filter_args[i][j])`.  The
cell argument tuple is abstracted by `α` and the applied predicate by
`pred`. -/
def get_grid_of_wf_idcs_general (waveforms : List Waveform)
    (pred : α → Waveform → Bool) (filter_args : List (List α))
    (fMaxIsSet : Bool) (mx : Nat) : List (List (List Nat)) :=
  filter_args.map (fun row => row.map (fun a => scanCell waveforms (pred a) fMaxIsSet mx))

/-- `WaveformSet.__get_grid_of_wf_idcs_by_run`: per cell, if
`filter_args[i][j][0] not in self.__runs` the scan is skipped and the
cell stays empty; otherwise the cell is filled exactly as the general
method does with `WaveformSet.match_run`.  A cell's argument tuple is its
run number (`filter_args[i][j][0]`, the single argument of `match_run`
beyond the waveform). -/
def get_grid_of_wf_idcs_by_run (waveforms : List Waveform) (runs : List Int)
    (filter_args : List (List Int)) (fMaxIsSet : Bool) (mx : Nat) :
    List (List (List Nat)) :=
  filter_args.map (fun row => row.map (fun run =>
    if run ∈ runs then
      scanCell waveforms (fun wf => match_run wf run) fMaxIsSet mx
    else []))

/-- `WaveformSet.__get_grid_of_wf_idcs_by_endpoint_and_channel`: per
cell, if the endpoint `filter_args[i][j][0]` is not a key of
`self.__available_channels`, or the channel `filter_args[i][j][1]` is not
in that endpoint's channel set, the scan is skipped and the cell stays
empty; otherwise the cell is filled exactly as the general method does
with `WaveformSet.match_endpoint_and_channel`. -/
def get_grid_of_wf_idcs_by_endpoint_and_channel (waveforms : List Waveform)
    (d : List (Int × List Int)) (filter_args : List (List (Int × Int)))
    (fMaxIsSet : Bool) (mx : Nat) : List (List (List Nat)) :=
  filter_args.map (fun row => row.map (fun ec =>
    if ac_mem d ec.1 ec.2 then
      scanCell waveforms (fun wf => match_endpoint_and_channel wf ec.1 ec.2) fMaxIsSet mx
    else []))

/-- Filter-contract validation of `WaveformSet.get_grid_of_wf_idcs`
(filtering mode, messages 3..5): `inspect.signature(wf_filter)` must not
raise `TypeError` (message 3, `wf_filter` undefined or not callable); the
first parameter must exist (an empty parameter list makes
`list(signature.parameters.keys())[0]` raise an uncaught `IndexError` —
unlike `analyse`, this method does not catch it) and be named `waveform`
(message 4) and be annotated as the `Waveform` class (message 5).  The
return annotation is not inspected here. -/
def check_filter_contract (wf_filter : Option PySignature) : Except PyErr Unit :=
  match wf_filter with
  | none => .error (.filterContract 3)
  | some sig =>
    match sig.params with
    | [] => .error .indexError
    | (name, ann) :: _ =>
      if name ≠ "waveform" then .error (.filterContract 4)
      else if ann ≠ Ann.waveformCls then .error (.filterContract 5)
      else .ok ()

/-- `WaveformSet.get_2D_indices_nested_list`: after the two positivity
checks (messages 1 and 2), build the nested list whose cell `[i][j]`
holds `k + indices_per_slot*(j + ncols*i)` for `k` in
`range(indices_per_slot)`. -/
def get_2D_indices_nested_list (indices_per_slot : Int) (nrows ncols : Int) :
    Except PyErr (List (List (List Int))) :=
  if nrows < 1 ∨ ncols < 1 then .error (.badGridParams 1)
  else if indices_per_slot < 1 then .error (.badGridParams 2)
  else .ok ((List.range nrows.toNat).map (fun i =>
    (List.range ncols.toNat).map (fun j =>
      (List.range indices_per_slot.toNat).map (fun k =>
        Int.ofNat k + indices_per_slot * (Int.ofNat j + ncols * Int.ofNat i)))))

/-- The non-filtering (contiguous) path of
`WaveformSet.get_grid_of_wf_idcs`: positivity checks on `nrows`/`ncols`
(message 1) and on the given `wfs_per_axes` (message 2), then the return
of `WaveformSet.get_2D_indices_nested_list(wfs_per_axes, nrows, ncols)`.
No collection state is read on this path. -/
def get_grid_of_wf_idcs_contiguous (nrows ncols wfs_per_axes : Int) :
    Except PyErr (List (List (List Int))) :=
  if nrows < 1 ∨ ncols < 1 then .error (.badGridParams 1)
  else if wfs_per_axes < 1 then .error (.badGridParams 2)
  else get_2D_indices_nested_list wfs_per_axes nrows ncols

/-- Element-wise numpy addition `a + b` of two traces (the embedded
traces always share the collection's common length). -/
def addAdcs (a b : List ℚ) : List ℚ :=
  List.zipWith (· + ·) a b

/-- numpy division of a trace by a scalar, `a / n`. -/
def divAdcs (a : List ℚ) (n : Nat) : List ℚ :=
  a.map (fun x => x / (n : ℚ))

/-- `np.zeros((points_per_wf,))`. -/
def npZeros (n : Nat) : List ℚ :=
  List.replicate n (0 : ℚ)

/-- `WaveformSet.is_valid_iterator_value`: `0 <= iterator_value <=
len(self.__waveforms) - 1`. -/
def is_valid_iterator_value (s : WaveformSet) (iterator_value : Int) : Bool :=
  if iterator_value < 0 then false
  else if iterator_value ≤ (s.waveforms.length : Int) - 1 then true
  else false

/-- `WaveformSet.__compute_mean_waveform_of_every_waveform`.  The local
`aux` starts as `self.Waveforms[0].Adcs` — a *view* of waveform 0's numpy
buffer, not a copy — and every `aux += self.Waveforms[i].Adcs` of the
loop accumulates in place, so after the loop waveform 0's stored trace
*is* the running sum.  The output takes waveform 0's time step and
`aux/len(self.__waveforms)` (a fresh array), and both caches are set:
the provenance is `tuple(range(len(self.__waveforms)))`. -/
def compute_mean_waveform_of_every_waveform (s : WaveformSet) :
    WaveformSet × WaveformAdcs :=
  match s.waveforms with
  | [] => (s, ⟨0, []⟩)    -- dead branch: compute_mean_waveform already checked non-emptiness
  | w0 :: rest =>
    let aux := rest.foldl (fun acc wf => addAdcs acc wf.Adcs) w0.Adcs
    let n := (w0 :: rest).length
    let output : WaveformAdcs := ⟨w0.TimeStep_ns, divAdcs aux n⟩
    ({ s with waveforms := { w0 with Adcs := aux } :: rest
              mean_adcs := some output
              mean_adcs_idcs := some ((List.range n).map (fun i => (i : Int))) },
     output)

/-- Selection loop of `__compute_mean_waveform_with_selector`: `aux`
starts as fresh zeros and accumulates the traces of the waveforms the
selector accepts, whose indices are collected in order. -/
def selectorLoop (sel : Waveform → Bool) :
    List Waveform → Nat → List ℚ → List Nat → List ℚ × List Nat
  | [], _, aux, added => (aux, added)
  | wf :: rest, i, aux, added =>
    if sel wf then selectorLoop sel rest (i + 1) (addAdcs aux wf.Adcs) (added ++ [i])
    else selectorLoop sel rest (i + 1) aux added

/-- `WaveformSet.__compute_mean_waveform_with_selector`: run the
selection loop from `np.zeros((points_per_wf,))`; if no waveform passed,
raise the message-1 `Exception` (the spec's `EmptySelectionError`) —
note the caches are only assigned *after* this raise point; otherwise
build the output from the first contributing waveform's time step and
`aux/len(added_wvfs)`, and set both caches. -/
def compute_mean_waveform_with_selector (s : WaveformSet) (sel : Waveform → Bool) :
    WaveformSet × Except PyErr WaveformAdcs :=
  match selectorLoop sel s.waveforms 0 (npZeros s.points_per_wf) [] with
  | (aux, added) =>
    match added with
    | [] => (s, .error .emptySelection)
    | a0 :: rest =>
      match pyGet s.waveforms (a0 : Int) with
      | none => (s, .error .indexError)   -- dead branch: a0 is an in-range loop index
      | some wfa0 =>
        let output : WaveformAdcs := ⟨wfa0.TimeStep_ns, divAdcs aux (a0 :: rest).length⟩
        ({ s with mean_adcs := some output
                  mean_adcs_idcs := some ((a0 :: rest).map (fun i => (i : Int))) },
         .ok output)

/-- Accumulation loop of `__compute_mean_waveform_of_given_waveforms`:
for each supplied index, `self.__waveforms[idx]` — Python indexing, so
negative indices in `[-len, -1]` alias from the end — either raises
`IndexError`, which is caught and the index skipped (`continue`), or
contributes its trace to `aux` and its (verbatim) index to
`added_wvfs`. -/
def givenLoop (waveforms : List Waveform) :
    List Int → List ℚ → List Int → List ℚ × List Int
  | [], aux, added => (aux, added)
  | idx :: rest, aux, added =>
    match pyGet waveforms idx with
    | none => givenLoop waveforms rest aux added
    | some wf => givenLoop waveforms rest (addAdcs aux wf.Adcs) (added ++ [idx])

/-- `WaveformSet.__compute_mean_waveform_of_given_waveforms`: run the
accumulation loop from `np.zeros((points_per_wf,))`, then build the
output from `self.__waveforms[added_wvfs[0]].TimeStep_ns` and
`aux/len(added_wvfs)` and set both caches.  The caller has already
guaranteed at least one index in `[0, len)`, so `added_wvfs` is
non-empty; the `[]` branch models the `IndexError` that
`added_wvfs[0]` would raise. -/
def compute_mean_waveform_of_given_waveforms (s : WaveformSet) (wf_idcs : List Int) :
    WaveformSet × Except PyErr WaveformAdcs :=
  match givenLoop s.waveforms wf_idcs (npZeros s.points_per_wf) [] with
  | (aux, added) =>
    match added with
    | [] => (s, .error .indexError)
    | a0 :: rest =>
      match pyGet s.waveforms a0 with
      | none => (s, .error .indexError)   -- dead branch: a0 was successfully indexed in the loop
      | some wfa0 =>
        let output : WaveformAdcs := ⟨wfa0.TimeStep_ns, divAdcs aux (a0 :: rest).length⟩
        ({ s with mean_adcs := some output, mean_adcs_idcs := some (a0 :: rest) }, .ok output)

/-- `WaveformSet.compute_mean_waveform`: raise the message-1 `Exception`
(the spec's `EmptyCollectionError`) on an empty collection; dispatch on
argument precedence — `wf_idcs` first (any non-`None` `wf_idcs` reaches
the `else` branch regardless of `wf_selector`), then `wf_selector`
(validating its signature: first parameter named `waveform` — message 2;
annotated as the `Waveform` class — message 3; return annotated `bool` —
message 4; an empty parameter list raises an uncaught `IndexError`),
then the all-waveforms average.  In explicit-index mode the list must
contain at least one index valid per `is_valid_iterator_value`, else the
message-5 `Exception` (the spec's `EmptySelectionError`) is raised. -/
def compute_mean_waveform (s : WaveformSet) (wf_idcs : Option (List Int))
    (wf_selector : Option (PySignature × (Waveform → Bool))) :
    WaveformSet × Except PyErr WaveformAdcs :=
  if s.waveforms.length = 0 then (s, .error .emptyCollection)
  else
    match wf_idcs with
    | some idcs =>          -- the `else` arm: any non-None wf_idcs wins the precedence
      if ¬ idcs.any (fun idx => is_valid_iterator_value s idx) then
        (s, .error .emptySelection)
      else compute_mean_waveform_of_given_waveforms s idcs
    | none =>
      match wf_selector with
      | none =>
        let r := compute_mean_waveform_of_every_waveform s
        (r.1, .ok r.2)
      | some (sig, sel) =>
        match sig.params with
        | [] => (s, .error .indexError)
        | (name, ann) :: _ =>
          if name ≠ "waveform" then (s, .error (.selectorContract 2))
          else if ann ≠ Ann.waveformCls then (s, .error (.selectorContract 3))
          else if sig.retAnn ≠ Ann.boolCls then (s, .error (.selectorContract 4))
          else compute_mean_waveform_with_selector s sel

/-! Concrete fixtures used by witnesses and counterexamples. -/

/-- A record with run 10, endpoint 100, channel 1 and the one-sample trace `[1]`. -/
def wfA : Waveform :=
  { Timestamp := 0, TimeStep_ns := 16, Adcs := [1], RunNumber := 10, Endpoint := 100, Channel := 1 }

/-- A record with run 11, endpoint 100, channel 2 and the one-sample trace `[2]`. -/
def wfB : Waveform :=
  { Timestamp := 1, TimeStep_ns := 16, Adcs := [2], RunNumber := 11, Endpoint := 100, Channel := 2 }

/-- A record with run 11, endpoint 101, channel 1 and the one-sample trace `[5]`. -/
def wfC : Waveform :=
  { Timestamp := 2, TimeStep_ns := 16, Adcs := [5], RunNumber := 11, Endpoint := 101, Channel := 1 }

/-- A record with a four-sample trace, for baseline-limit fixtures. -/
def wfD : Waveform :=
  { Timestamp := 3, TimeStep_ns := 16, Adcs := [0, 1, 2, 3], RunNumber := 12, Endpoint := 102,
    Channel := 3 }

/-- The two-record collection `[wfA, wfB]` as built by `waveformSetInit`. -/
def sTwo : WaveformSet :=
  { waveforms := [wfA, wfB], points_per_wf := 1,
    runs := update_runs [wfA, wfB],
    available_channels := update_available_channels [wfA, wfB],
    mean_adcs := none, mean_adcs_idcs := none }

/-- The three-record collection `[wfA, wfB, wfC]` as built by `waveformSetInit`. -/
def sThree : WaveformSet :=
  { waveforms := [wfA, wfB, wfC], points_per_wf := 1,
    runs := update_runs [wfA, wfB, wfC],
    available_channels := update_available_channels [wfA, wfB, wfC],
    mean_adcs := none, mean_adcs_idcs := none }

/-- The one-record collection `[wfD]` (four samples per record) as built by
`waveformSetInit`. -/
def sFourPts : WaveformSet :=
  { waveforms := [wfD], points_per_wf := 4,
    runs := update_runs [wfD],
    available_channels := update_available_channels [wfD],
    mean_adcs := none, mean_adcs_idcs := none }

/-- An analyser reference that satisfies every clause of the analyser
contract of `WaveformSet.analyse`. -/
def goodAnalyser : AnalyserRef :=
  .sig { params := [("waveform", Ann.waveformAdcsCls)], retAnn := Ann.tupleWfAnaResultBoolDict }

/-- Transcription of the spec's validity predicate on baseline limits
(section 8 of the spec and claim C7): even length, strictly increasing,
and every value within `[0, samples_per_record - 1]`.  Stated from the
spec's words, to be compared with the source-derived
`baseline_limits_are_well_formed`. -/
def baselineLimitsWellFormedSpec (points_per_wf : Int) (baseline_limits : List Int) : Prop :=
  baseline_limits.length % 2 = 0 ∧ List.Chain' (· < ·) baseline_limits ∧
    ∀ x ∈ baseline_limits, 0 ≤ x ∧ x ≤ points_per_wf - 1

/-! Helper lemmas. -/

/-- The constructed fixture `sTwo` is exactly what `waveformSetInit` builds. -/
theorem waveformSetInit_sTwo : waveformSetInit [wfA, wfB] = .ok sTwo := rfl

/-- The constructed fixture `sThree` is exactly what `waveformSetInit` builds. -/
theorem waveformSetInit_sThree : waveformSetInit [wfA, wfB, wfC] = .ok sThree := rfl

/-- The constructed fixture `sFourPts` is exactly what `waveformSetInit` builds. -/
theorem waveformSetInit_sFourPts : waveformSetInit [wfD] = .ok sFourPts := rfl

/-- A predicate that holds on no waveform of the list produces an empty
uncapped scan. -/
theorem scanAll_eq_nil (p : Waveform → Bool) :
    ∀ (ws : List Waveform) (k : Nat), (∀ wf ∈ ws, p wf = false) → scanAll p ws k = [] := by
  intro ws
  induction ws with
  | nil => intro k _; rfl
  | cons wf rest ih =>
    intro k h
    have hwf : p wf = false := h wf (List.mem_cons_self wf rest)
    simp only [scanAll, hwf, Bool.false_eq_true, if_false]
    exact ih (k + 1) (fun w hw => h w (List.mem_cons_of_mem wf hw))

/-- A predicate that holds on no waveform of the list produces an empty
capped scan. -/
theorem scanCap_eq_nil (p : Waveform → Bool) :
    ∀ (ws : List Waveform) (k counter mx : Nat), (∀ wf ∈ ws, p wf = false) →
      scanCap p ws k counter mx = [] := by
  intro ws
  induction ws with
  | nil => intro k counter mx _; rfl
  | cons wf rest ih =>
    intro k counter mx h
    have hwf : p wf = false := h wf (List.mem_cons_self wf rest)
    simp only [scanCap, hwf, Bool.false_eq_true, if_false]
    exact ih (k + 1) counter mx (fun w hw => h w (List.mem_cons_of_mem wf hw))

/-- A predicate that holds on no waveform of the list produces an empty
cell, capped or not. -/
theorem scanCell_eq_nil (ws : List Waveform) (p : Waveform → Bool) (b : Bool) (mx : Nat)
    (h : ∀ wf ∈ ws, p wf = false) : scanCell ws p b mx = [] := by
  unfold scanCell
  cases b with
  | true => exact scanCap_eq_nil p ws 0 0 mx h
  | false => exact scanAll_eq_nil p ws 0 h

/-- Every waveform's run number is recorded in the runs set. -/
theorem runNumber_mem_update_runs {wf : Waveform} {ws : List Waveform} (h : wf ∈ ws) :
    wf.RunNumber ∈ update_runs ws :=
  List.mem_map_of_mem (fun w => w.RunNumber) h

/-- Membership in the channel dictionary, spelt through the lookup. -/
theorem ac_mem_eq_true_iff (d : List (Int × List Int)) (e c : Int) :
    ac_mem d e c = true ↔ ∃ cs, ac_lookup d e = some cs ∧ c ∈ cs := by
  unfold ac_mem
  cases h : ac_lookup d e with
  | none => simp
  | some cs => simp [h]

/-- Looking up the key just inserted finds the inserted channel. -/
theorem ac_lookup_insert_self (e c : Int) :
    ∀ d, ∃ cs, ac_lookup (ac_insert d e c) e = some cs ∧ c ∈ cs := by
  intro d
  induction d with
  | nil => exact ⟨[c], by simp [ac_insert, ac_lookup]⟩
  | cons kv rest ih =>
    obtain ⟨k, cs⟩ := kv
    by_cases hk : k = e
    · subst hk
      exact ⟨c :: cs, by simp [ac_insert, ac_lookup]⟩
    · obtain ⟨cs', h1, h2⟩ := ih
      exact ⟨cs', by simpa [ac_insert, ac_lookup, hk] using h1, h2⟩

/-- Insertion preserves every channel already present under any key. -/
theorem ac_lookup_insert_pres (e c e' c' : Int) :
    ∀ d cs, ac_lookup d e = some cs → c ∈ cs →
      ∃ cs', ac_lookup (ac_insert d e' c') e = some cs' ∧ c ∈ cs' := by
  intro d
  induction d with
  | nil => intro cs h _; simp [ac_lookup] at h
  | cons kv rest ih =>
    obtain ⟨k, cs0⟩ := kv
    intro cs h hc
    by_cases hk : k = e'
    · subst hk
      by_cases hke : k = e
      · subst hke
        have hcs : cs0 = cs := by simpa [ac_lookup] using h
        exact ⟨c' :: cs0, by simp [ac_insert, ac_lookup],
          by rw [hcs]; exact List.mem_cons_of_mem c' hc⟩
      · simp only [ac_lookup, if_neg hke] at h
        exact ⟨cs, by simpa [ac_insert, ac_lookup, hke] using h, hc⟩
    · by_cases hke : k = e
      · subst hke
        have hcs : cs0 = cs := by simpa [ac_lookup] using h
        exact ⟨cs0, by simp [ac_insert, ac_lookup, hk], by rw [hcs]; exact hc⟩
      · simp only [ac_lookup, if_neg hke] at h
        obtain ⟨cs', h1, h2⟩ := ih cs h hc
        exact ⟨cs', by simpa [ac_insert, ac_lookup, hk, hke] using h1, h2⟩

/-- Inserting a key/channel pair makes it present. -/
theorem ac_mem_insert_self (e c : Int) (d : List (Int × List Int)) :
    ac_mem (ac_insert d e c) e c = true := by
  rw [ac_mem_eq_true_iff]
  exact ac_lookup_insert_self e c d

/-- Insertion preserves presence of any already-present key/channel pair. -/
theorem ac_mem_insert_of_mem (e c e' c' : Int) (d : List (Int × List Int))
    (h : ac_mem d e c = true) : ac_mem (ac_insert d e' c') e c = true := by
  rw [ac_mem_eq_true_iff] at h ⊢
  obtain ⟨cs, h1, h2⟩ := h
  exact ac_lookup_insert_pres e c e' c' d cs h1 h2

/-- Presence of a key/channel pair survives the remainder of the
`update_available_channels` fold. -/
theorem ac_mem_foldl_of_mem (e c : Int) :
    ∀ (ws : List Waveform) (d : List (Int × List Int)), ac_mem d e c = true →
      ac_mem (ws.foldl (fun d wf => ac_insert d wf.Endpoint wf.Channel) d) e c = true := by
  intro ws
  induction ws with
  | nil => intro d h; exact h
  | cons wf rest ih =>
    intro d h
    exact ih _ (ac_mem_insert_of_mem e c wf.Endpoint wf.Channel d h)

/-- Every waveform's endpoint/channel pair is present in the dictionary
built by `update_available_channels`. -/
theorem ac_mem_update_available_channels {wf : Waveform} {ws : List Waveform} (h : wf ∈ ws) :
    ac_mem (update_available_channels ws) wf.Endpoint wf.Channel = true := by
  unfold update_available_channels
  suffices haux : ∀ (l : List Waveform) (d : List (Int × List Int)), wf ∈ l →
      ac_mem (l.foldl (fun d w => ac_insert d w.Endpoint w.Channel) d) wf.Endpoint wf.Channel
        = true by
    exact haux ws [] h
  intro l
  induction l with
  | nil => intro d hmem; exact absurd hmem (List.not_mem_nil wf)
  | cons w rest ih =>
    intro d hmem
    rcases List.mem_cons.mp hmem with heq | htail
    · subst heq
      exact ac_mem_foldl_of_mem wf.Endpoint wf.Channel rest _
        (ac_mem_insert_self wf.Endpoint wf.Channel d)
    · exact ih _ htail

/-- The validity test of `compute_mean_waveform`, spelt arithmetically. -/
theorem is_valid_iterator_value_iff (s : WaveformSet) (i : Int) :
    is_valid_iterator_value s i = true ↔ 0 ≤ i ∧ i < (s.waveforms.length : Int) := by
  unfold is_valid_iterator_value
  split_ifs with h1 h2 <;> simp <;> omega

/-- A valid iterator value can be indexed without an `IndexError`. -/
theorem pyGet_isSome_of_valid (s : WaveformSet) (i : Int)
    (h : is_valid_iterator_value s i = true) : (pyGet s.waveforms i).isSome = true := by
  obtain ⟨h0, hlt⟩ := (is_valid_iterator_value_iff s i).mp h
  unfold pyGet
  rw [if_pos h0]
  have : i.toNat < s.waveforms.length := by omega
  simp [List.get?_eq_getElem?, List.getElem?_eq_getElem this]

/-- Indices that raise `IndexError` are invisible to the accumulation loop
of `__compute_mean_waveform_of_given_waveforms`. -/
theorem givenLoop_filter (ws : List Waveform) :
    ∀ (idcs : List Int) (aux : List ℚ) (added : List Int),
      givenLoop ws idcs aux added
        = givenLoop ws (idcs.filter (fun i => (pyGet ws i).isSome)) aux added := by
  intro idcs
  induction idcs with
  | nil => intro aux added; rfl
  | cons i rest ih =>
    intro aux added
    cases h : pyGet ws i with
    | none =>
      have hp : (pyGet ws i).isSome = false := by rw [h]; rfl
      rw [List.filter_cons]
      simp only [hp, Bool.false_eq_true, if_false]
      simp only [givenLoop, h]
      exact ih aux added
    | some wf =>
      have hp : (pyGet ws i).isSome = true := by rw [h]; rfl
      rw [List.filter_cons]
      simp only [hp, if_true]
      simp only [givenLoop, h]
      exact ih (addAdcs aux wf.Adcs) (added ++ [i])

/-- Dropping the non-indexable indices does not change whether some valid
iterator value is present. -/
theorem any_valid_filter (s : WaveformSet) :
    ∀ idcs : List Int,
      idcs.any (fun i => is_valid_iterator_value s i)
        = (idcs.filter (fun i => (pyGet s.waveforms i).isSome)).any
            (fun i => is_valid_iterator_value s i) := by
  intro idcs
  induction idcs with
  | nil => rfl
  | cons i rest ih =>
    rw [List.filter_cons]
    cases hv : is_valid_iterator_value s i with
    | true =>
      have hp : (pyGet s.waveforms i).isSome = true := pyGet_isSome_of_valid s i hv
      simp [hp, hv]
    | false =>
      cases hp : (pyGet s.waveforms i).isSome with
      | true => simp [hv, ih]
      | false => simp [hv, ih]

/-- In a strictly increasing chain the head is a lower bound. -/
theorem chain_lt_head_le :
    ∀ (rest : List Int) (b0 : Int), List.Chain' (· < ·) (b0 :: rest) →
      ∀ x ∈ b0 :: rest, b0 ≤ x := by
  intro rest
  induction rest with
  | nil =>
    intro b0 _ x hx
    rw [List.mem_singleton.mp hx]
  | cons b1 rest' ih =>
    intro b0 h x hx
    rcases List.mem_cons.mp hx with rfl | hx'
    · exact le_refl x
    · have h01 : b0 < b1 := (List.chain'_cons.mp h).1
      have hx1 := ih b1 (List.chain'_cons.mp h).2 x hx'
      omega

/-- In a strictly increasing chain the last element (`baseline_limits[-1]`)
is an upper bound. -/
theorem chain_lt_le_getLastD :
    ∀ (rest : List Int) (b0 : Int), List.Chain' (· < ·) (b0 :: rest) →
      ∀ x ∈ b0 :: rest, x ≤ (b0 :: rest).getLastD 0 := by
  intro rest
  induction rest with
  | nil =>
    intro b0 _ x hx
    rw [List.mem_singleton.mp hx]
    rfl
  | cons b1 rest' ih =>
    intro b0 h x hx
    have hlast : (b0 :: b1 :: rest').getLastD 0 = (b1 :: rest').getLastD 0 := by
      simp [List.getLastD_cons]
    rcases List.mem_cons.mp hx with rfl | hx'
    · have h01 : x < b1 := (List.chain'_cons.mp h).1
      have hx1 := ih b1 (List.chain'_cons.mp h).2 b1 (List.mem_cons_self b1 rest')
      omega
    · rw [hlast]
      exact ih b1 (List.chain'_cons.mp h).2 x hx'

/-- The last element of a non-empty list belongs to it. -/
theorem getLastD_mem : ∀ (l : List Int) (d : Int), l ≠ [] → l.getLastD d ∈ l := by
  intro l
  induction l with
  | nil => intro d h; exact absurd rfl h
  | cons a l' ih =>
    intro d _
    rw [List.getLastD_cons]
    by_cases hl : l' = []
    · subst hl; simp
    · exact List.mem_cons_of_mem a (ih a hl)

/-- On a non-empty list the source's baseline-limits check agrees exactly
with the spec's validity predicate. -/
theorem baseline_cons_reduce (points : Int) (b0 : Int) (rest : List Int)
    (hpar : (b0 :: rest).length % 2 = 0) :
    baseline_limits_are_well_formed points (b0 :: rest)
      = (if b0 < 0 then (.ok false : Except PyErr Bool)
         else if ¬ List.Chain' (· < ·) (b0 :: rest) then .ok false
         else if (b0 :: rest).getLastD 0 > points - 1 then .ok false else .ok true) := by
  unfold baseline_limits_are_well_formed
  rw [if_neg (by omega : ¬ (b0 :: rest).length % 2 ≠ 0)]

/-- On a non-empty list the source's baseline-limits check agrees exactly
with the spec's validity predicate. -/
theorem baseline_ok_iff (points : Int) (b0 : Int) (rest : List Int) :
    baseline_limits_are_well_formed points (b0 :: rest) = .ok true
      ↔ baselineLimitsWellFormedSpec points (b0 :: rest) := by
  by_cases hpar : (b0 :: rest).length % 2 ≠ 0
  · have hred : baseline_limits_are_well_formed points (b0 :: rest) = .ok false := by
      unfold baseline_limits_are_well_formed
      rw [if_pos hpar]
    rw [hred]
    simp only [Except.ok.injEq, Bool.false_eq_true, false_iff]
    intro hcon
    exact hpar hcon.1
  · push_neg at hpar
    rw [baseline_cons_reduce points b0 rest hpar]
    unfold baselineLimitsWellFormedSpec
    split_ifs with h1 h2 h3
    · simp only [Except.ok.injEq, Bool.false_eq_true, false_iff]
      intro hcon
      have := (hcon.2.2 b0 (List.mem_cons_self b0 rest)).1
      omega
    · simp only [Except.ok.injEq, Bool.false_eq_true, false_iff]
      intro hcon
      have hmem := getLastD_mem (b0 :: rest) 0 (List.cons_ne_nil b0 rest)
      have := (hcon.2.2 _ hmem).2
      omega
    · simp only [Except.ok.injEq, true_iff]
      push_neg at h3
      refine ⟨hpar, h2, ?_⟩
      intro x hx
      have hlow := chain_lt_head_le rest b0 h2 x hx
      have hhigh := chain_lt_le_getLastD rest b0 h2 x hx
      constructor <;> omega
    · simp only [Except.ok.injEq, Bool.false_eq_true, false_iff]
      intro hcon
      exact h2 hcon.2.1

/-- On a non-empty list the source's baseline-limits check never raises
and returns `False` exactly when the spec predicate fails. -/
theorem baseline_not_ok (points : Int) (b0 : Int) (rest : List Int)
    (hnot : ¬ baselineLimitsWellFormedSpec points (b0 :: rest)) :
    baseline_limits_are_well_formed points (b0 :: rest) = .ok false := by
  have hor : baseline_limits_are_well_formed points (b0 :: rest) = .ok true
      ∨ baseline_limits_are_well_formed points (b0 :: rest) = .ok false := by
    by_cases hpar : (b0 :: rest).length % 2 ≠ 0
    · right
      unfold baseline_limits_are_well_formed
      rw [if_pos hpar]
    · push_neg at hpar
      rw [baseline_cons_reduce points b0 rest hpar]
      split_ifs <;> simp
  rcases hor with h | h
  · exact absurd ((baseline_ok_iff points b0 rest).mp h) hnot
  · exact h

/-- A failing selector-mode mean leaves the collection state untouched. -/
theorem cmw_selector_state_of_error (s : WaveformSet) (sel : Waveform → Bool) (e : PyErr)
    (h : (compute_mean_waveform_with_selector s sel).2 = .error e) :
    (compute_mean_waveform_with_selector s sel).1 = s := by
  unfold compute_mean_waveform_with_selector at h ⊢
  repeat' split at h
  all_goals first | rfl | simp_all

/-- A failing explicit-index mean leaves the collection state untouched. -/
theorem cmw_given_state_of_error (s : WaveformSet) (idcs : List Int) (e : PyErr)
    (h : (compute_mean_waveform_of_given_waveforms s idcs).2 = .error e) :
    (compute_mean_waveform_of_given_waveforms s idcs).1 = s := by
  unfold compute_mean_waveform_of_given_waveforms at h ⊢
  repeat' split at h
  all_goals first | rfl | simp_all

/-- Decidability of the spec's baseline-limits predicate. -/
instance (points_per_wf : Int) (baseline_limits : List Int) :
    Decidable (baselineLimitsWellFormedSpec points_per_wf baseline_limits) :=
  inferInstanceAs (Decidable (baseline_limits.length % 2 = 0
    ∧ List.Chain' (· < ·) baseline_limits
    ∧ ∀ x ∈ baseline_limits, 0 ≤ x ∧ x ≤ points_per_wf - 1))

/-- Unfolding equation of `compute_mean_waveform` in explicit-index mode
(any non-`None` `wf_idcs` reaches the `else` dispatch arm). -/
theorem compute_mean_waveform_some_eq (s : WaveformSet) (idcs : List Int)
    (sel : Option (PySignature × (Waveform → Bool))) :
    compute_mean_waveform s (some idcs) sel
      = if s.waveforms.length = 0 then (s, .error .emptyCollection)
        else if ¬ idcs.any (fun idx => is_valid_iterator_value s idx) then
          (s, .error .emptySelection)
        else compute_mean_waveform_of_given_waveforms s idcs := rfl

/-- Unfolding equation of `compute_mean_waveform` in all-records mode. -/
theorem compute_mean_waveform_none_none_eq (s : WaveformSet) :
    compute_mean_waveform s none none
      = if s.waveforms.length = 0 then (s, .error .emptyCollection)
        else ((compute_mean_waveform_of_every_waveform s).1,
              .ok (compute_mean_waveform_of_every_waveform s).2) := rfl

/-- Unfolding equation of `compute_mean_waveform` in selector mode. -/
theorem compute_mean_waveform_none_some_eq (s : WaveformSet) (sig : PySignature)
    (sel : Waveform → Bool) :
    compute_mean_waveform s none (some (sig, sel))
      = if s.waveforms.length = 0 then (s, .error .emptyCollection)
        else match sig.params with
          | [] => (s, .error .indexError)
          | (name, ann) :: _ =>
            if name ≠ "waveform" then (s, .error (.selectorContract 2))
            else if ann ≠ Ann.waveformCls then (s, .error (.selectorContract 3))
            else if sig.retAnn ≠ Ann.boolCls then (s, .error (.selectorContract 4))
            else compute_mean_waveform_with_selector s sel := rfl

/-! Claim theorems. -/

/-- C1: the claim that the all-records mean is idempotent is refuted by the
code: on the two-record fixture `sTwo` (traces `[1]` and `[2]`) the first
call returns mean `[3/2]` but corrupts record 0's trace in place (the local
`aux` of `__compute_mean_waveform_of_every_waveform` aliases it), so an
immediately repeated call returns `[5/2]`; the provenance tuples of the two
calls are nevertheless identical. -/
theorem C1_all_records_mean_twice_differs :
    (compute_mean_waveform sTwo none none).2 = .ok ⟨16, [3/2]⟩
    ∧ (compute_mean_waveform (compute_mean_waveform sTwo none none).1 none none).2
        = .ok ⟨16, [5/2]⟩
    ∧ (WaveformAdcs.mk 16 [3/2]) ≠ (WaveformAdcs.mk 16 [5/2])
    ∧ (compute_mean_waveform sTwo none none).1.mean_adcs_idcs = some [0, 1]
    ∧ (compute_mean_waveform
          (compute_mean_waveform sTwo none none).1 none none).1.mean_adcs_idcs
        = some [0, 1] := by
  refine ⟨?_, ?_, ?_, by decide, by decide⟩
  · simp [compute_mean_waveform, compute_mean_waveform_of_every_waveform, sTwo, wfA, wfB,
      addAdcs, divAdcs]
    all_goals norm_num
  · simp [compute_mean_waveform, compute_mean_waveform_of_every_waveform, sTwo, wfA, wfB,
      addAdcs, divAdcs]
    all_goals norm_num
  · intro hcon
    have h32 : (3 / 2 : ℚ) = 5 / 2 := by
      have := congrArg WaveformAdcs.Adcs hcon
      simpa using this
    norm_num at h32

/-- C2: the claim that aggregation is read-only on the records is refuted by
the code: on the two-record fixture `sTwo` the all-records mean rewrites
record 0's trace from `[1]` to `[3]` (the in-place `aux +=` aliasing),
while `sTwo` itself started with traces `[[1], [2]]`. -/
theorem C2_all_records_mean_mutates_record_zero :
    sTwo.waveforms.map (fun wf => wf.Adcs) = [[1], [2]]
    ∧ (compute_mean_waveform sTwo none none).1.waveforms.map (fun wf => wf.Adcs)
        = [[3], [2]]
    ∧ ([[3], [2]] : List (List ℚ)) ≠ [[1], [2]] := by
  refine ⟨by simp [sTwo, wfA, wfB], ?_, by norm_num⟩
  simp [compute_mean_waveform, compute_mean_waveform_of_every_waveform, sTwo, wfA, wfB,
    addAdcs, divAdcs]
  all_goals norm_num

/-- C3 counterexample: on the three-record fixture `sThree` (traces `[1]`,
`[2]`, `[5]`) the explicit index list `[0, -1]` refutes the claim that every
supplied index outside `[0, len)` is skipped and contributes nothing: `-1`
is outside `[0, 3)` yet Python's negative indexing makes it contribute
record 2's trace (mean `[(1+5)/2] = [3]`, not record 0's `[1]`) and `-1`
appears verbatim in the provenance. -/
theorem C3_counterexample_negative_index_contributes :
    (compute_mean_waveform sThree (some [0, -1]) none).2 = .ok ⟨16, [3]⟩
    ∧ (compute_mean_waveform sThree (some [0, -1]) none).1.mean_adcs_idcs = some [0, -1]
    ∧ wfA.Adcs = [1]
    ∧ (WaveformAdcs.mk 16 [3]) ≠ (WaveformAdcs.mk 16 [1])
    ∧ some [0, -1] ≠ some [0] := by
  refine ⟨?_, by decide, by decide, ?_, by decide⟩
  · simp [compute_mean_waveform, compute_mean_waveform_of_given_waveforms, givenLoop, sThree,
      wfA, wfB, wfC, addAdcs, divAdcs, npZeros, pyGet, is_valid_iterator_value]
    all_goals norm_num
  · intro hcon
    have hl := congrArg WaveformAdcs.Adcs hcon
    simp at hl

/-- C3 amended: in explicit-index mode only the indices that raise
`IndexError` under Python indexing (`idx ≥ len` or `idx < -len`) are
silently skipped and contribute nothing — indices in `[-len, -1]` alias
records from the end and do contribute; a list with no index in `[0, len)`
fails with the `EmptySelectionError` raise before any averaging work; and
duplicate valid indices each contribute once, so `[2, 2, 999]` on the
3-record fixture yields exactly record 2's trace with provenance
`(2, 2)`. -/
theorem C3_amended :
    (∀ (s : WaveformSet) (wf_idcs : List Int)
        (sel : Option (PySignature × (Waveform → Bool))),
        s.waveforms ≠ [] →
        (∀ idx ∈ wf_idcs, is_valid_iterator_value s idx = false) →
        compute_mean_waveform s (some wf_idcs) sel = (s, .error .emptySelection))
    ∧ (∀ (s : WaveformSet) (wf_idcs : List Int)
        (sel : Option (PySignature × (Waveform → Bool))),
        compute_mean_waveform s (some wf_idcs) sel
          = compute_mean_waveform s
              (some (wf_idcs.filter (fun i => (pyGet s.waveforms i).isSome))) sel)
    ∧ ((compute_mean_waveform sThree (some [2, 2, 999]) none).2 = .ok ⟨16, wfC.Adcs⟩
        ∧ (compute_mean_waveform sThree (some [2, 2, 999]) none).1.mean_adcs_idcs
            = some [2, 2]) := by
  refine ⟨?_, ?_, ?_, by decide⟩
  · intro s wf_idcs sel hne hall
    rw [compute_mean_waveform_some_eq]
    rw [if_neg (by simpa [List.length_eq_zero] using hne)]
    have hany : wf_idcs.any (fun idx => is_valid_iterator_value s idx) = false :=
      List.any_eq_false.mpr (by intro x hx; simp [hall x hx])
    simp [hany]
  · intro s wf_idcs sel
    rw [compute_mean_waveform_some_eq, compute_mean_waveform_some_eq]
    by_cases h0 : s.waveforms.length = 0
    · rw [if_pos h0, if_pos h0]
    · rw [if_neg h0, if_neg h0]
      rw [show wf_idcs.any (fun idx => is_valid_iterator_value s idx)
            = (wf_idcs.filter (fun i => (pyGet s.waveforms i).isSome)).any
                (fun idx => is_valid_iterator_value s idx) from any_valid_filter s wf_idcs]
      by_cases hv : (wf_idcs.filter (fun i => (pyGet s.waveforms i).isSome)).any
          (fun idx => is_valid_iterator_value s idx) = true
      · rw [if_neg (not_not_intro hv), if_neg (not_not_intro hv)]
        unfold compute_mean_waveform_of_given_waveforms
        rw [givenLoop_filter s.waveforms wf_idcs]
      · rw [if_pos hv, if_pos hv]
  · simp [compute_mean_waveform, compute_mean_waveform_of_given_waveforms, givenLoop, sThree,
      wfA, wfB, wfC, addAdcs, divAdcs, npZeros, pyGet, is_valid_iterator_value]

/-- C3 witness: the amended claim at concrete inputs — `[99, -7]` has no
index in `[0, 3)`, so the call fails with the `EmptySelectionError` raise. -/
theorem C3_amended_witness :
    compute_mean_waveform sThree (some [99, -7]) none = (sThree, .error .emptySelection) :=
  C3_amended.1 sThree [99, -7] none (by decide) (by decide)

/-- C4: for every collection, every grid of per-cell filter arguments and
every cap mode, the by-run fast path (with the runs set recomputed by
`update_runs`, as at construction) and the by-endpoint-and-channel fast
path (with the dictionary built by `update_available_channels`) return
exactly the grid that the fully general path returns with `match_run`,
respectively `match_endpoint_and_channel`. -/
theorem C4_fast_paths_match_general :
    ∀ (waveforms : List Waveform) (fMaxIsSet : Bool) (mx : Nat)
      (run_args : List (List Int)) (ec_args : List (List (Int × Int))),
      get_grid_of_wf_idcs_by_run waveforms (update_runs waveforms) run_args fMaxIsSet mx
        = get_grid_of_wf_idcs_general waveforms (fun run wf => match_run wf run)
            run_args fMaxIsSet mx
      ∧ get_grid_of_wf_idcs_by_endpoint_and_channel waveforms
            (update_available_channels waveforms) ec_args fMaxIsSet mx
        = get_grid_of_wf_idcs_general waveforms
            (fun ec wf => match_endpoint_and_channel wf ec.1 ec.2) ec_args fMaxIsSet mx := by
  intro ws b mx run_args ec_args
  constructor
  · unfold get_grid_of_wf_idcs_by_run get_grid_of_wf_idcs_general
    apply List.map_congr_left
    intro row _
    apply List.map_congr_left
    intro run _
    by_cases hrun : run ∈ update_runs ws
    · rw [if_pos hrun]
    · rw [if_neg hrun]
      symm
      apply scanCell_eq_nil
      intro wf hwf
      cases hmr : match_run wf run with
      | false => exact hmr
      | true =>
        exfalso
        apply hrun
        have : wf.RunNumber = run := by simpa [match_run] using hmr
        rw [← this]
        exact runNumber_mem_update_runs hwf
  · unfold get_grid_of_wf_idcs_by_endpoint_and_channel get_grid_of_wf_idcs_general
    apply List.map_congr_left
    intro row _
    apply List.map_congr_left
    intro ec _
    by_cases hec : ac_mem (update_available_channels ws) ec.1 ec.2 = true
    · rw [if_pos hec]
    · rw [if_neg hec]
      symm
      apply scanCell_eq_nil
      intro wf hwf
      cases hm : match_endpoint_and_channel wf ec.1 ec.2 with
      | false => exact hm
      | true =>
        exfalso
        apply hec
        have hpair : wf.Endpoint = ec.1 ∧ wf.Channel = ec.2 := by
          simpa [match_endpoint_and_channel] using hm
        rw [← hpair.1, ← hpair.2]
        exact ac_mem_update_available_channels hwf

/-- C5 counterexample: constructing from the empty record sequence does
fail — but with the uncaught `IndexError` raised by
`check_length_homogeneity` probing `self.__waveforms[0]`, not with the
`ShapeError` the claim names. -/
theorem C5_counterexample_empty_fails_with_index_error :
    waveformSetInit [] = .error .indexError ∧ PyErr.indexError ≠ PyErr.shapeError :=
  ⟨rfl, by decide⟩

/-- C5 amended: construction from a non-empty sequence with non-uniform
trace lengths fails with the `ShapeError` raise; construction from the
empty sequence fails with an uncaught `IndexError` instead; and on success
`points_per_wf` equals the common trace length of every record. -/
theorem C5_amended :
    (∀ (w0 : Waveform) (rest : List Waveform),
        (∃ w ∈ rest, w.Adcs.length ≠ w0.Adcs.length) →
        waveformSetInit (w0 :: rest) = .error .shapeError)
    ∧ waveformSetInit [] = .error .indexError
    ∧ (∀ (w0 : Waveform) (rest : List Waveform) (s : WaveformSet),
        waveformSetInit (w0 :: rest) = .ok s →
        s.points_per_wf = w0.Adcs.length
        ∧ ∀ wf ∈ w0 :: rest, wf.Adcs.length = s.points_per_wf) := by
  refine ⟨?_, rfl, ?_⟩
  · rintro w0 rest ⟨w, hw, hlen⟩
    have hall : rest.all (fun w => w.Adcs.length == w0.Adcs.length) = false := by
      rw [List.all_eq_false]
      exact ⟨w, hw, by simp [hlen]⟩
    simp [waveformSetInit, check_length_homogeneity, hall]
  · intro w0 rest s h
    cases hall : rest.all (fun w => w.Adcs.length == w0.Adcs.length) with
    | false => simp [waveformSetInit, check_length_homogeneity, hall] at h
    | true =>
      simp [waveformSetInit, check_length_homogeneity, hall] at h
      subst h
      refine ⟨rfl, ?_⟩
      intro wf hwf
      rcases List.mem_cons.mp hwf with rfl | htail
      · rfl
      · have := List.all_eq_true.mp hall wf htail
        simpa using this

/-- C5 witness: the amended claim at concrete inputs — two one-sample
records plus a two-sample record fail with the `ShapeError` raise, and the
successfully constructed `sTwo` has `points_per_wf = 1`, the length of
both traces. -/
theorem C5_amended_witness :
    waveformSetInit [wfA, { wfB with Adcs := [1, 2] }] = .error .shapeError
    ∧ (sTwo.points_per_wf = wfA.Adcs.length
        ∧ ∀ wf ∈ [wfA, wfB], wf.Adcs.length = sTwo.points_per_wf) :=
  ⟨C5_amended.1 wfA [{ wfB with Adcs := [1, 2] }]
      ⟨{ wfB with Adcs := [1, 2] }, by simp, by decide⟩,
   C5_amended.2.2 wfA [wfB] sTwo waveformSetInit_sTwo⟩

/-- C6 counterexample: the filtering-mode contract check of
`get_grid_of_wf_idcs` accepts a predicate whose first parameter is named
`waveform` and annotated as the `Waveform` class but whose return is
annotated `int`, not `bool` — the return annotation is never inspected,
contrary to the claim. -/
theorem C6_counterexample_return_ann_unchecked :
    check_filter_contract (some { params := [("waveform", Ann.waveformCls)],
                                  retAnn := Ann.intCls }) = .ok ()
    ∧ Ann.intCls ≠ Ann.boolCls :=
  ⟨rfl, by decide⟩

/-- C6 amended: in filtering mode the grid partitioner raises a
`FilterContractError` before scanning any record when the predicate is not
callable (message 3), or its first parameter is not named `waveform`
(message 4), or that parameter is not annotated as the `Waveform` class
(message 5); the return annotation is not inspected, so any predicate
satisfying the two parameter clauses passes the check regardless of its
return annotation. -/
theorem C6_amended :
    check_filter_contract none = .error (.filterContract 3)
    ∧ (∀ (name : String) (ann : Ann) (ps : List (String × Ann)) (ret : Ann),
        name ≠ "waveform" →
        check_filter_contract (some ⟨(name, ann) :: ps, ret⟩) = .error (.filterContract 4))
    ∧ (∀ (ann : Ann) (ps : List (String × Ann)) (ret : Ann),
        ann ≠ Ann.waveformCls →
        check_filter_contract (some ⟨("waveform", ann) :: ps, ret⟩)
          = .error (.filterContract 5))
    ∧ (∀ (ps : List (String × Ann)) (ret : Ann),
        check_filter_contract (some ⟨("waveform", Ann.waveformCls) :: ps, ret⟩) = .ok ()) := by
  refine ⟨rfl, ?_, ?_, ?_⟩
  · intro name ann ps ret h
    simp [check_filter_contract, h]
  · intro ann ps ret h
    simp [check_filter_contract, h]
  · intro ps ret
    simp [check_filter_contract]

/-- C6 witness: the amended claim at concrete inputs — a first parameter
annotated `int` triggers the message-5 `FilterContractError`, and a
compliant parameter list passes even with a `bool` return annotation. -/
theorem C6_amended_witness :
    check_filter_contract (some ⟨[("waveform", Ann.intCls)], Ann.boolCls⟩)
      = .error (.filterContract 5)
    ∧ check_filter_contract (some ⟨[("waveform", Ann.waveformCls)], Ann.boolCls⟩) = .ok () :=
  ⟨C6_amended.2.2.1 Ann.intCls [] Ann.boolCls (by decide),
   C6_amended.2.2.2 [] Ann.boolCls⟩

/-- The analyser-contract check only ever raises `AnalyserContractError`s. -/
theorem check_analyser_contract_errors (a : AnalyserRef) :
    check_analyser_contract a = .ok ()
    ∨ ∃ n, check_analyser_contract a = .error (.analyserContract n) := by
  cases a with
  | missing => exact Or.inr ⟨3, rfl⟩
  | notCallable => exact Or.inr ⟨4, rfl⟩
  | sig s =>
    cases hp : s.params with
    | nil => exact Or.inr ⟨8, by simp [check_analyser_contract, hp]⟩
    | cons hd tl =>
      obtain ⟨name, ann⟩ := hd
      simp only [check_analyser_contract, hp]
      split_ifs <;> first | (exact Or.inl rfl) | (exact Or.inr ⟨_, rfl⟩)

/-- Unfolding equation of `analyse` once the baseline-limits check has
returned `True`. -/
theorem analyse_baseline_ok (s : WaveformSet) (label : String) (a : AnalyserRef)
    (baseline_limits : List Int) (int_ll : Int) (int_ul : Option Int)
    (hok : baseline_limits_are_well_formed (s.points_per_wf : Int) baseline_limits
      = .ok true) :
    analyse s label a baseline_limits int_ll int_ul
      = if ¬ subinterval_is_well_formed (s.points_per_wf : Int) int_ll
            (int_ul.getD ((s.points_per_wf : Int) - 1)) then
          (s, .error .malformedWindow)
        else
          match check_analyser_contract a with
          | .error e => (s, .error e)
          | .ok _ =>
            ({ s with waveforms :=
                s.waveforms.map (fun wf => { wf with Analyses := wf.Analyses ++ [label] }) },
             .ok ()) := by
  unfold analyse
  rw [hok]
  rfl

/-- C7 counterexample: the empty baseline-limits list satisfies every
clause of the claim's validity predicate (even length, vacuously strictly
increasing, vacuously within bounds), yet the baseline check does not pass
— `analyse` fails with an uncaught `IndexError`, not by proceeding. -/
theorem C7_counterexample_empty_limits :
    ([] : List Int).length % 2 = 0
    ∧ List.Chain' (· < ·) ([] : List Int)
    ∧ (∀ x ∈ ([] : List Int), 0 ≤ x ∧ x ≤ (sFourPts.points_per_wf : Int) - 1)
    ∧ analyse sFourPts "baseline" goodAnalyser [] 0 none = (sFourPts, .error .indexError)
    ∧ PyErr.indexError ≠ PyErr.malformedLimits := by
  refine ⟨rfl, List.chain'_nil, ?_, rfl, by decide⟩
  intro x hx
  exact absurd hx (List.not_mem_nil x)

/-- C7 amended: for every *non-empty* `baseline_limits`, if the spec's
validity predicate fails then `analyse` returns the `MalformedLimitsError`
raise with the collection untouched; if it holds then the source's
baseline check returns `True` and `analyse` proceeds past it (it can no
longer fail with `MalformedLimitsError` or the baseline `IndexError`).
The empty list is excluded: it makes the check itself raise `IndexError`
(claim C9). -/
theorem C7_amended :
    ∀ (s : WaveformSet) (label : String) (a : AnalyserRef) (int_ll : Int)
      (int_ul : Option Int) (b0 : Int) (rest : List Int),
      (¬ baselineLimitsWellFormedSpec (s.points_per_wf : Int) (b0 :: rest) →
        analyse s label a (b0 :: rest) int_ll int_ul = (s, .error .malformedLimits))
      ∧ (baselineLimitsWellFormedSpec (s.points_per_wf : Int) (b0 :: rest) →
          baseline_limits_are_well_formed (s.points_per_wf : Int) (b0 :: rest) = .ok true
          ∧ (analyse s label a (b0 :: rest) int_ll int_ul).2 ≠ .error .malformedLimits
          ∧ (analyse s label a (b0 :: rest) int_ll int_ul).2 ≠ .error .indexError) := by
  intro s label a int_ll int_ul b0 rest
  constructor
  · intro hnot
    have hres := baseline_not_ok (s.points_per_wf : Int) b0 rest hnot
    unfold analyse
    rw [hres]
    simp
  · intro hspec
    have hok := (baseline_ok_iff (s.points_per_wf : Int) b0 rest).mpr hspec
    refine ⟨hok, ?_⟩
    rw [analyse_baseline_ok s label a (b0 :: rest) int_ll int_ul hok]
    split_ifs with hw
    · rcases check_analyser_contract_errors a with hc | ⟨n, hc⟩ <;> rw [hc] <;> simp
    · simp

/-- C7 witness: the amended claim at concrete inputs — on the four-sample
fixture, the decreasing list `[2, 0]` fails the spec predicate and
`analyse` returns the `MalformedLimitsError` raise untouched, while
`[0, 2]` satisfies it and the source's check returns `True`. -/
theorem C7_amended_witness :
    analyse sFourPts "lbl" goodAnalyser [2, 0] 0 none = (sFourPts, .error .malformedLimits)
    ∧ baseline_limits_are_well_formed (sFourPts.points_per_wf : Int) [0, 2] = .ok true :=
  ⟨(C7_amended sFourPts "lbl" goodAnalyser 0 none 2 [0]).1
      (by norm_num [baselineLimitsWellFormedSpec, List.chain'_cons]),
   ((C7_amended sFourPts "lbl" goodAnalyser 0 none 0 [2]).2
      (by norm_num [baselineLimitsWellFormedSpec, List.chain'_cons, sFourPts])).1⟩

/-- C8: in contiguous mode with `indices_per_cell = k` on an `R × C` grid,
cell `[i][j]` of the grid returned by `get_grid_of_wf_idcs` is exactly
`[k*(j + C*i), ..., k*(j + C*i) + k - 1]` for every in-range `i`, `j` —
and, since this path reads no collection state at all, this holds
regardless of the collection's length. -/
theorem C8_contiguous_grid_cells :
    ∀ (nrows ncols k : Int) (i j : Nat),
      1 ≤ nrows → 1 ≤ ncols → 1 ≤ k → (i : Int) < nrows → (j : Int) < ncols →
      ∃ g, get_grid_of_wf_idcs_contiguous nrows ncols k = .ok g
        ∧ (g.get? i).bind (fun row => row.get? j)
            = some ((List.range k.toNat).map
                (fun m => Int.ofNat m + k * (Int.ofNat j + ncols * Int.ofNat i))) := by
  intro nrows ncols k i j hr hc hk hi hj
  have hnot : ¬ (nrows < 1 ∨ ncols < 1) := by omega
  refine ⟨(List.range nrows.toNat).map (fun i2 =>
      (List.range ncols.toNat).map (fun j2 =>
        (List.range k.toNat).map (fun m =>
          Int.ofNat m + k * (Int.ofNat j2 + ncols * Int.ofNat i2)))), ?_, ?_⟩
  · unfold get_grid_of_wf_idcs_contiguous get_2D_indices_nested_list
    rw [if_neg hnot, if_neg (by omega : ¬ k < 1), if_neg hnot, if_neg (by omega : ¬ k < 1)]
  · have hi' : i < nrows.toNat := by omega
    have hj' : j < ncols.toNat := by omega
    rw [List.get?_map, List.get?_range hi']
    rw [Option.map_some', Option.some_bind]
    rw [List.get?_map, List.get?_range hj']
    simp

/-- C8 witness: the contiguous-mode claim at concrete inputs — a 2 × 3
grid with 2 indices per cell; cell `[1][2]` is `[10, 11]`, i.e. the range
starting at `2*(2 + 3*1)`. -/
theorem C8_contiguous_grid_cells_witness :
    ∃ g, get_grid_of_wf_idcs_contiguous 2 3 2 = .ok g
      ∧ (g.get? 1).bind (fun row => row.get? 2)
          = some ((List.range (2 : Int).toNat).map
              (fun m => Int.ofNat m + 2 * (Int.ofNat 2 + 3 * Int.ofNat 1))) :=
  C8_contiguous_grid_cells 2 3 2 1 2 (by norm_num) (by norm_num) (by norm_num)
    (by norm_num) (by norm_num)

/-- C9: the baseline-limits check is not total on even-length input —
the empty list has even length, yet the check raises `IndexError`
(indexing element 0) instead of returning a boolean, so `analyse` with
`baseline_limits = []` fails before touching any record but not through
the `MalformedLimitsError` path. -/
theorem C9_empty_limits_index_error :
    ([] : List Int).length % 2 = 0
    ∧ (∀ points_per_wf : Int, baseline_limits_are_well_formed points_per_wf [] = .error .indexError)
    ∧ (∀ (s : WaveformSet) (label : String) (a : AnalyserRef) (int_ll : Int)
        (int_ul : Option Int),
        analyse s label a [] int_ll int_ul = (s, .error .indexError))
    ∧ PyErr.indexError ≠ PyErr.malformedLimits := by
  refine ⟨rfl, fun points_per_wf => rfl, fun s label a int_ll int_ul => rfl, by decide⟩

/-- A failing `compute_mean_waveform` call returns the collection state it
was given: every raise site of the method and of its two fallible helpers
comes before the cache assignments. -/
theorem compute_mean_waveform_state_of_error :
    ∀ (s : WaveformSet) (wf_idcs : Option (List Int))
      (sel : Option (PySignature × (Waveform → Bool))) (e : PyErr),
      (compute_mean_waveform s wf_idcs sel).2 = .error e →
      (compute_mean_waveform s wf_idcs sel).1 = s := by
  intro s wf_idcs sel e
  rcases wf_idcs with _ | idcs
  · rcases sel with _ | ⟨sig, selb⟩
    · by_cases h0 : s.waveforms.length = 0
      · intro _
        simp [compute_mean_waveform_none_none_eq, h0]
      · intro h
        rw [compute_mean_waveform_none_none_eq, if_neg h0] at h
        simp at h
    · by_cases h0 : s.waveforms.length = 0
      · intro _
        simp [compute_mean_waveform_none_some_eq, h0]
      · rcases hp : sig.params with _ | ⟨⟨name, ann⟩, ps⟩
        · intro _
          rw [compute_mean_waveform_none_some_eq, if_neg h0, hp]
        · by_cases hn : name = "waveform"
          · by_cases ha : ann = Ann.waveformCls
            · by_cases hret : sig.retAnn = Ann.boolCls
              · intro h
                rw [compute_mean_waveform_none_some_eq, if_neg h0, hp] at h ⊢
                simp only [hn, ha, hret, ne_eq, not_true_eq_false, if_false] at h ⊢
                exact cmw_selector_state_of_error s selb e h
              · intro _
                rw [compute_mean_waveform_none_some_eq, if_neg h0, hp]
                simp [hn, ha, hret]
            · intro _
              rw [compute_mean_waveform_none_some_eq, if_neg h0, hp]
              simp [hn, ha]
          · intro _
            rw [compute_mean_waveform_none_some_eq, if_neg h0, hp]
            simp [hn]
  · by_cases h0 : s.waveforms.length = 0
    · intro _
      simp [compute_mean_waveform_some_eq, h0]
    · by_cases hv : idcs.any (fun idx => is_valid_iterator_value s idx) = true
      · intro h
        rw [compute_mean_waveform_some_eq, if_neg h0, if_neg (not_not_intro hv)] at h ⊢
        exact cmw_given_state_of_error s idcs e h
      · intro _
        rw [compute_mean_waveform_some_eq, if_neg h0, if_pos hv]

/-- C10: every failing `compute_mean_waveform` call — empty collection,
selector contract violation, selector matching zero records, or an index
list with no valid index — leaves the cached mean trace (`MeanAdcs`) and
provenance (`MeanAdcsIdcs`) exactly as they were before the call. -/
theorem C10_failing_mean_preserves_cache :
    ∀ (s : WaveformSet) (wf_idcs : Option (List Int))
      (sel : Option (PySignature × (Waveform → Bool))) (e : PyErr),
      (compute_mean_waveform s wf_idcs sel).2 = .error e →
      (compute_mean_waveform s wf_idcs sel).1.mean_adcs = s.mean_adcs
      ∧ (compute_mean_waveform s wf_idcs sel).1.mean_adcs_idcs = s.mean_adcs_idcs := by
  intro s wf_idcs sel e h
  rw [compute_mean_waveform_state_of_error s wf_idcs sel e h]
  exact ⟨rfl, rfl⟩

/-- C10 witness: a concrete failing call — index list `[99]` on the
three-record fixture, which fails with the `EmptySelectionError` raise —
leaves both caches at their prior value `none`. -/
theorem C10_failing_mean_preserves_cache_witness :
    (compute_mean_waveform sThree (some [99]) none).2 = .error .emptySelection
    ∧ (compute_mean_waveform sThree (some [99]) none).1.mean_adcs = sThree.mean_adcs
    ∧ (compute_mean_waveform sThree (some [99]) none).1.mean_adcs_idcs
        = sThree.mean_adcs_idcs :=
  ⟨rfl,
   C10_failing_mean_preserves_cache sThree (some [99]) none .emptySelection rfl⟩

end Waffles
